/-
Verification of the authentication and session subsystem of the
`all_in_ledger_web` application (a Next.js + Prisma family-finance ledger).

The development shallowly embeds the TypeScript source into Lean:
  * `src/server/auth/session.ts`       -> token generation/hash/expiry helpers
  * `src/server/auth/password.ts`      -> password hash / verify (delegating to
                                          a model of the node-argon2 library)
  * `src/server/auth/currentUser.ts`   -> session resolver and cookie extraction
  * `src/server/services/auth.service.ts` -> register / login
  * `app/api/auth/logout/route.ts`     -> logout handler
  * `app/api/auth/google/callback/route.ts` -> OAuth callback handler

The Prisma database is modelled as explicit lists of rows; `$transaction`
semantics (all-or-nothing) are modelled by running the transaction body as an
`Except` computation and discarding its writes on error.  Nondeterministic
inputs of the code (random tokens, argon2 salts, the current time, network
responses, injected storage faults) are passed as explicit parameters.
Timestamps are milliseconds since the epoch, as `Nat`.
-/
import Mathlib

set_option maxRecDepth 4000

/-! ## SHA-256 (model of node's `crypto.createHash("sha256")`)

`session.ts` hashes session tokens with SHA-256 over the UTF-8 bytes of the
token and renders the digest in lowercase hex.  We implement SHA-256 (FIPS
180-4) over `List Nat` bytes; standard test vectors are proved below. -/

def w32 (n : Nat) : Nat := n % 4294967296

def rotr (n x : Nat) : Nat := w32 ((x >>> n) ||| (x <<< (32 - n)))

def bsig0 (x : Nat) : Nat := rotr 2 x ^^^ rotr 13 x ^^^ rotr 22 x

def bsig1 (x : Nat) : Nat := rotr 6 x ^^^ rotr 11 x ^^^ rotr 25 x

def ssig0 (x : Nat) : Nat := rotr 7 x ^^^ rotr 18 x ^^^ (x >>> 3)

def ssig1 (x : Nat) : Nat := rotr 17 x ^^^ rotr 19 x ^^^ (x >>> 10)

def chFn (e f g : Nat) : Nat := (e &&& f) ^^^ ((4294967295 ^^^ e) &&& g)

def majFn (a b c : Nat) : Nat := (a &&& b) ^^^ (a &&& c) ^^^ (b &&& c)

def sha256K : List Nat :=
  [1116352408, 1899447441, 3049323471, 3921009573, 961987163,
   1508970993, 2453635748, 2870763221, 3624381080, 310598401,
   607225278, 1426881987, 1925078388, 2162078206, 2614888103,
   3248222580, 3835390401, 4022224774, 264347078, 604807628,
   770255983, 1249150122, 1555081692, 1996064986, 2554220882,
   2821834349, 2952996808, 3210313671, 3336571891, 3584528711,
   113926993, 338241895, 666307205, 773529912, 1294757372,
   1396182291, 1695183700, 1986661051, 2177026350, 2456956037,
   2730485921, 2820302411, 3259730800, 3345764771, 3516065817,
   3600352804, 4094571909, 275423344, 430227734, 506948616,
   659060556, 883997877, 958139571, 1322822218, 1537002063,
   1747873779, 1955562222, 2024104815, 2227730452, 2361852424,
   2428436474, 2756734187, 3204031479, 3329325298]

structure Hash8 where
  a : Nat
  b : Nat
  c : Nat
  d : Nat
  e : Nat
  f : Nat
  g : Nat
  h : Nat
  deriving Repr, DecidableEq

def sha256H0 : Hash8 :=
  ⟨1779033703, 3144134277, 1013904242, 2773480762,
   1359893119, 2600822924, 528734635, 1541459225⟩

def sha256Round (s : Hash8) (kw : Nat) : Hash8 :=
  let t1 := w32 (s.h + bsig1 s.e + chFn s.e s.f s.g + kw)
  let t2 := w32 (bsig0 s.a + majFn s.a s.b s.c)
  ⟨w32 (t1 + t2), s.a, s.b, s.c, w32 (s.d + t1), s.e, s.f, s.g⟩

def iterateN {α : Type} (f : α → α) : Nat → α → α
  | 0, a => a
  | n + 1, a => iterateN f n (f a)

/-- One step of the message-schedule extension; `acc` holds the schedule so
far, most recent word first. -/
def schedStep (acc : List Nat) : List Nat :=
  w32 (ssig1 (acc.getD 1 0) + acc.getD 6 0 + ssig0 (acc.getD 14 0) + acc.getD 15 0) :: acc

/-- Extend the 16 message words of a block to the full 64-word schedule. -/
def sha256Schedule (w16 : List Nat) : List Nat :=
  (iterateN schedStep 48 w16.reverse).reverse

def sha256Compress (st : Hash8) (block : List Nat) : Hash8 :=
  let w := sha256Schedule block
  let s := (sha256K.zipWith (· + ·) w).foldl sha256Round st
  ⟨w32 (st.a + s.a), w32 (st.b + s.b), w32 (st.c + s.c), w32 (st.d + s.d),
   w32 (st.e + s.e), w32 (st.f + s.f), w32 (st.g + s.g), w32 (st.h + s.h)⟩

/-- Big-endian 4-byte groups to 32-bit words. -/
def bytesToWords : List Nat → List Nat
  | b0 :: b1 :: b2 :: b3 :: rest =>
      (((b0 <<< 8 ||| b1) <<< 8 ||| b2) <<< 8 ||| b3) :: bytesToWords rest
  | _ => []

/-- Split a (padded) byte list into 64-byte blocks (fuel-based so that the
kernel can evaluate it; `fuel = l.length` always suffices since each step
consumes at least one element). -/
def chunks64Go : Nat → List Nat → List (List Nat)
  | 0, _ => []
  | _, [] => []
  | fuel + 1, x :: xs => ((x :: xs).take 64) :: chunks64Go fuel ((x :: xs).drop 64)

def chunks64 (l : List Nat) : List (List Nat) := chunks64Go l.length l

/-- Big-endian base-256 digits of `n`, `k` bytes wide. -/
def beBytes : Nat → Nat → List Nat
  | 0, _ => []
  | k + 1, n => beBytes k (n / 256) ++ [n % 256]

/-- SHA-256 padding: append `0x80`, zeros, and the 8-byte bit length. -/
def sha256Pad (m : List Nat) : List Nat :=
  let L := m.length
  let k := (64 - (L + 9) % 64) % 64
  m ++ 0x80 :: List.replicate k 0 ++ beBytes 8 (8 * L)

def sha256Bytes (m : List Nat) : List Nat :=
  let final := (chunks64 (sha256Pad m)).foldl (fun st b => sha256Compress st (bytesToWords b)) sha256H0
  beBytes 4 final.a ++ beBytes 4 final.b ++ beBytes 4 final.c ++ beBytes 4 final.d ++
  beBytes 4 final.e ++ beBytes 4 final.f ++ beBytes 4 final.g ++ beBytes 4 final.h

def hexDigits : List Char := "0123456789abcdef".toList

def byteToHex (b : Nat) : List Char :=
  [hexDigits.getD (b / 16) 'x', hexDigits.getD (b % 16) 'x']

def bytesToHex (bs : List Nat) : String :=
  String.mk (bs.flatMap byteToHex)

/-- UTF-8 encoding of a single code point. -/
def utf8EncodeChar (n : Nat) : List Nat :=
  if n < 0x80 then [n]
  else if n < 0x800 then [0xc0 ||| (n >>> 6), 0x80 ||| (n &&& 0x3f)]
  else if n < 0x10000 then
    [0xe0 ||| (n >>> 12), 0x80 ||| ((n >>> 6) &&& 0x3f), 0x80 ||| (n &&& 0x3f)]
  else
    [0xf0 ||| (n >>> 18), 0x80 ||| ((n >>> 12) &&& 0x3f),
     0x80 ||| ((n >>> 6) &&& 0x3f), 0x80 ||| (n &&& 0x3f)]

def utf8Bytes (s : String) : List Nat :=
  s.toList.flatMap (fun c => utf8EncodeChar c.toNat)

def sha256Hex (s : String) : String :=
  bytesToHex (sha256Bytes (utf8Bytes s))

/-- FIPS 180-4 test vector: the empty string. -/
example : sha256Hex "" =
    "e3b0c44298fc1c149afbf4c8996fb92427ae41e4649b934ca495991b7852b855" := by decide

/-- FIPS 180-4 test vector: "abc". -/
example : sha256Hex "abc" =
    "ba7816bf8f01cfea414140de5dae2223b00361a396177a9cb410ff61f20015ad" := by decide

/-! ## Cookie extraction (model of `cookie.match(new RegExp(`name=([^;]+)`))`)

`currentUser.ts` and the OAuth callback extract cookie values with the
unanchored JavaScript regex `name=([^;]+)` applied to the whole Cookie header.
We model its exact semantics: the leftmost occurrence of `name=` that is
followed by at least one non-semicolon character matches, and the capture is
the maximal run of non-semicolon characters after the `=`. -/

/-- If `pat` is an initial segment of `l`, return the remainder. -/
def stripSeg : List Char → List Char → Option (List Char)
  | [], l => some l
  | _ :: _, [] => none
  | p :: ps, c :: cs => if p == c then stripSeg ps cs else none

/-- Scan for the leftmost position where `pat` occurs followed by a nonempty
run of non-semicolon characters; return that run (the regex capture). -/
def scanCookie (pat : List Char) : List Char → Option (List Char)
  | [] => none
  | c :: cs =>
    match stripSeg pat (c :: cs) with
    | some rest =>
      if (rest.takeWhile (fun ch => ch != ';')).isEmpty then scanCookie pat cs
      else some (rest.takeWhile (fun ch => ch != ';'))
    | none => scanCookie pat cs

/-- `cookieMatch name header` models `header.match(/name=([^;]+)/)?.[1]`. -/
def cookieMatch (name header : String) : Option String :=
  (scanCookie (name.toList ++ ['=']) header.toList).map (fun l => String.mk l)

/-- Split a character list at every occurrence of `sep` (the semantics of
JavaScript `String.prototype.split` with a one-character separator). -/
def splitCh (sep : Char) : List Char → List (List Char)
  | [] => [[]]
  | c :: cs =>
    match splitCh sep cs with
    | [] => if c == sep then [[], []] else [[c]]
    | h :: t => if c == sep then [] :: h :: t else (c :: h) :: t

def strSplitCh (sep : Char) (s : String) : List String :=
  (splitCh sep s.toList).map String.mk

/-! ## The argon2 library (collaborator model)

`password.ts` delegates to the third-party node-argon2 package, whose code is
not part of the repository.  We model its documented contract:
`hash(plain)` produces a PHC-formatted digest string `$argon2id$...$salt$...`
(the salt is random, passed here as a parameter; the digest body is modelled
as an injective encoding of the password), and `verify(digest, plain)`
resolves to whether `digest` was produced from `plain`, but REJECTS (throws)
when `digest` is not a well-formed argon2 digest — e.g. node-argon2 raises
"pchstr must contain a $ as first char" for a plain string such as "OAUTH".
Only this interface behaviour, never any cryptographic internals, is relied
on by the theorems below. -/

inductive AuthErr where
  /-- A `ZodError` from schema validation. -/
  | validation
  /-- The service's `HttpError` (message, HTTP status). -/
  | http (msg : String) (status : Nat)
  /-- An injected storage failure of the named Prisma operation. -/
  | dbFault (op : String)
  /-- An error thrown by the argon2 library. -/
  | argon (msg : String)
  deriving Repr, DecidableEq

def argon2Digest (salt plain : String) : String :=
  "$argon2id$v=19$m=65536,t=3,p=4$" ++ salt ++ "$" ++ plain

def argon2Verify (digest plain : String) : Except AuthErr Bool :=
  match strSplitCh (Char.ofNat 36) digest with
  | ["", "argon2id", "v=19", "m=65536,t=3,p=4", _salt, body] => .ok (body == plain)
  | _ => .error (.argon "pchstr must contain a $ as first char")

/-! ## `src/server/auth/password.ts` -/

/-- `hashPassword` – the salt chosen by the library is an explicit parameter. -/
def hashPassword (salt plainPassword : String) : String :=
  argon2Digest salt plainPassword

/-- `verifyPassword` – a bare delegation to `argon2.verify`, with no handling
of the library's rejection on malformed stored hashes. -/
def verifyPassword (passwordHash plainPassword : String) : Except AuthErr Bool :=
  argon2Verify passwordHash plainPassword

/-! ## `src/server/auth/session.ts` -/

def SESSION_TIL_DAYS : Nat := 30

/-- `hashSessionToken` – SHA-256 of the token, hex encoded. -/
def hashSessionToken (token : String) : String := sha256Hex token

/-- `getSessionExpiryDate` – `now` plus 30 days.  (The source adds 30
calendar days via `Date.setDate`; with timestamps as abstract milliseconds we
model a day as a fixed 86400000 ms.) -/
def getSessionExpiryDate (now : Nat) : Nat := now + SESSION_TIL_DAYS * 86400000

/- `generateSessionToken` returns 32 cryptographically random bytes hex
encoded; randomness is modelled by passing the generated token as an explicit
parameter to the operations that call it. -/

/-! ## Data model (Prisma rows as Lean structures)

The Prisma schema file is not among the sources, but the row shapes are fully
determined by the field accesses and `create`/`update` calls in the services
and routes: `findUnique({where:{email}})` and
`findUnique({where:{tokenHash}})` require `email` and `tokenHash` to be
unique columns.  Timestamps are `Nat` (ms); `revokedAt`/`lastLogin` are
nullable. -/

structure User where
  id : Nat
  email : String
  username : String
  passwordHash : String
  role : String
  isActive : Bool
  lastLogin : Option Nat
  createdAt : Nat
  deriving Repr, DecidableEq

structure Family where
  id : Nat
  name : String
  createdBy : Nat
  createdAt : Nat
  deriving Repr, DecidableEq

structure FamilyMember where
  userId : Nat
  familyId : Nat
  memberRole : String
  deriving Repr, DecidableEq

structure Session where
  id : Nat
  userId : Nat
  tokenHash : String
  expiresAt : Nat
  revokedAt : Option Nat
  createdAt : Nat
  deriving Repr, DecidableEq

structure OAuthAccount where
  userId : Nat
  provider : String
  providerAccountId : String
  email : String
  deriving Repr, DecidableEq

structure DB where
  users : List User
  families : List Family
  familyMembers : List FamilyMember
  sessions : List Session
  oauthAccounts : List OAuthAccount
  nextUserId : Nat
  nextFamilyId : Nat
  nextSessionId : Nat
  deriving Repr, DecidableEq

def findUserById (db : DB) (i : Nat) : Option User :=
  db.users.find? (fun u => u.id == i)

/-! ## HTTP request (the parts of the Fetch `Request` the auth code reads) -/

structure Request where
  /-- The `cookie` header, if present. -/
  cookie : Option String
  /-- The `code` URL search parameter (OAuth callback only). -/
  code : Option String
  /-- The `state` URL search parameter (OAuth callback only). -/
  state : Option String
  deriving Repr, DecidableEq

/-- JavaScript truthiness of a `string | null` value: `null` and `""` are
falsy. -/
def jsTruthyStr : Option String → Bool
  | none => false
  | some s => !s.isEmpty

/-! ## `src/shared/validators/auth.ts` (Zod schemas)

`z.email()` is modelled after Zod's default email pattern
`(?!\.)(?!.*\.\.)([A-Za-z0-9_+.-]|APOSTROPHE)*[A-Za-z0-9_+-]` at-sign
`([A-Za-z0-9][A-Za-z0-9-]*\.)+[A-Za-z]\x7b2,\x7d`.  String lengths are code
points (the JS source counts UTF-16 units; they agree on all ASCII data used
here). -/

def isLocalEndChar (c : Char) : Bool :=
  c.isAlpha || c.isDigit || c == '_' || c == '+' || c == '-'

def isLocalChar (c : Char) : Bool :=
  isLocalEndChar c || c == Char.ofNat 39 || c == '.'

def noDoubleDot : List Char → Bool
  | [] => true
  | [_] => true
  | a :: b :: rest => !(a == '.' && b == '.') && noDoubleDot (b :: rest)

def localOk (l : List Char) : Bool :=
  match l.getLast? with
  | none => false
  | some c => l.all isLocalChar && isLocalEndChar c

def labelOk (s : String) : Bool :=
  match s.toList with
  | [] => false
  | c :: rest => (c.isAlpha || c.isDigit) && rest.all (fun d => d.isAlpha || d.isDigit || d == '-')

def tldOk (s : String) : Bool :=
  decide (2 ≤ s.length) && s.toList.all Char.isAlpha

def domainOk (s : String) : Bool :=
  let labels := strSplitCh '.' s
  decide (2 ≤ labels.length) && labels.dropLast.all labelOk &&
    (match labels.getLast? with | some t => tldOk t | none => false)

def emailValid (s : String) : Bool :=
  match strSplitCh '@' s with
  | [localPart, domainPart] =>
      (s.toList.head? != some '.') && noDoubleDot s.toList &&
      localOk localPart.toList && domainOk domainPart
  | _ => false

structure RegisterInput where
  email : String
  username : String
  password : String
  familyName : Option String
  deriving Repr, DecidableEq

/-- `RegisterSchema`: email well-formed, username length 5–50, password
length 8–200, optional familyName length 1–80. -/
def registerInputValid (i : RegisterInput) : Bool :=
  emailValid i.email &&
  decide (5 ≤ i.username.length) && decide (i.username.length ≤ 50) &&
  decide (8 ≤ i.password.length) && decide (i.password.length ≤ 200) &&
  (match i.familyName with
   | none => true
   | some n => decide (1 ≤ n.length) && decide (n.length ≤ 80))

structure LoginInput where
  email : String
  password : String
  deriving Repr, DecidableEq

/-- `LoginSchema`: email well-formed, password nonempty. -/
def loginInputValid (i : LoginInput) : Bool :=
  emailValid i.email && decide (1 ≤ i.password.length)

/-! ## `src/server/auth/currentUser.ts` -/

def SESSION_COOKIE_NAME : String := "session"

/-- `getRawSessionTokenFromRequest`:
`cookie.match(/session=([^;]+)/)` on `req.headers.get("cookie") ?? ""`. -/
def getRawSessionTokenFromRequest (req : Request) : Option String :=
  cookieMatch SESSION_COOKIE_NAME (req.cookie.getD "")

/-- `getCurrentUserFromRequest`: resolve the session cookie to a user, or
`none` ("unauthenticated").  `prisma.session.findUnique({where:{tokenHash}},
include:{user}})` is modelled as first-match lookup plus the foreign-key
join. -/
def getCurrentUserFromRequest (req : Request) (db : DB) (now : Nat) : Option User :=
  match getRawSessionTokenFromRequest req with
  | none => none
  | some raw =>
    if raw = "" then none
    else
      let tokenHash := hashSessionToken raw
      match db.sessions.find? (fun s => s.tokenHash == tokenHash) with
      | none => none
      | some session =>
        if session.revokedAt.isSome then none
        else if session.expiresAt ≤ now then none
        else findUserById db session.userId

/-! ## `src/server/services/auth.service.ts`

`register` and `login` each wrap their multi-row writes in
`prisma.$transaction`.  The transaction body is run as an `Except`
computation over the database; a thrown error discards the body's writes
(Prisma rolls the transaction back) and the surrounding function re-raises
it.  Possible failures of the individual storage operations are modelled by
injected fault flags (`false` everywhere = the fault-free run). -/

def apos : String := String.singleton (Char.ofNat 39)

/-- `data.familyName ?? \x7bdata.username\x7d's Family`. -/
def defaultFamilyName (username : String) : String :=
  username ++ apos ++ "s Family"

structure UserView where
  id : Nat
  email : String
  username : String
  role : String
  deriving Repr, DecidableEq

structure AuthResult where
  user : UserView
  sessionToken : String
  deriving Repr, DecidableEq

structure RegisterFaults where
  failCreateUser : Bool
  failCreateFamily : Bool
  failCreateFamilyMember : Bool
  failCreateSession : Bool
  deriving Repr, DecidableEq

def RegisterFaults.noFaults : RegisterFaults := ⟨false, false, false, false⟩

/-- The body of `register`'s `prisma.$transaction`: create User, Family,
FamilyMember (role OWNER) and Session, in source order.  A `.error` result
means the body threw, so Prisma discards all of the body's writes. -/
def registerTx (data : RegisterInput) (passwordHash tokenHash : String)
    (expiresAt now : Nat) (f : RegisterFaults) (db : DB) :
    Except AuthErr (DB × User) :=
  if f.failCreateUser then .error (.dbFault "user.create") else
  let user : User :=
    { id := db.nextUserId, email := data.email, username := data.username,
      passwordHash := passwordHash, role := "USER", isActive := true,
      lastLogin := none, createdAt := now }
  let db1 : DB := { db with users := db.users ++ [user], nextUserId := db.nextUserId + 1 }
  if f.failCreateFamily then .error (.dbFault "family.create") else
  let family : Family :=
    { id := db1.nextFamilyId,
      name := data.familyName.getD (defaultFamilyName data.username),
      createdBy := user.id, createdAt := now }
  let db2 : DB := { db1 with families := db1.families ++ [family], nextFamilyId := db1.nextFamilyId + 1 }
  if f.failCreateFamilyMember then .error (.dbFault "familyMember.create") else
  let member : FamilyMember := { userId := user.id, familyId := family.id, memberRole := "OWNER" }
  let db3 : DB := { db2 with familyMembers := db2.familyMembers ++ [member] }
  if f.failCreateSession then .error (.dbFault "session.create") else
  let sess : Session :=
    { id := db3.nextSessionId, userId := user.id, tokenHash := tokenHash,
      expiresAt := expiresAt, revokedAt := none, createdAt := now }
  let db4 : DB := { db3 with sessions := db3.sessions ++ [sess], nextSessionId := db3.nextSessionId + 1 }
  .ok (db4, user)

/-- `register`: validate, reject a duplicate email with HttpError 409, hash
the password, then create user + family + membership + session atomically.
Returns the (possibly unchanged) database and the outcome. -/
def register (input : RegisterInput) (salt sessionToken : String) (now : Nat)
    (f : RegisterFaults) (db : DB) : DB × Except AuthErr AuthResult :=
  if ¬ registerInputValid input then (db, .error .validation)
  else
    match db.users.find? (fun u => u.email == input.email) with
    | some _ => (db, .error (.http "Email already in use" 409))
    | none =>
      match registerTx input (hashPassword salt input.password)
          (hashSessionToken sessionToken) (getSessionExpiryDate now) now f db with
      | .error e => (db, .error e)
      | .ok (db2, user) =>
        (db2, .ok { user := { id := user.id, email := user.email,
                              username := user.username, role := user.role },
                    sessionToken := sessionToken })

structure LoginFaults where
  failCreateSession : Bool
  failUpdateLastLogin : Bool
  deriving Repr, DecidableEq

def LoginFaults.noFaults : LoginFaults := ⟨false, false⟩

/-- The body of `login`'s `prisma.$transaction`: create the new session, then
update the user's `lastLogin` — both inside the same transaction.  A `.error`
result means the body threw, so Prisma discards all of the body's writes. -/
def loginTx (userId : Nat) (tokenHash : String) (expiresAt now : Nat)
    (f : LoginFaults) (db : DB) : Except AuthErr DB :=
  if f.failCreateSession then .error (.dbFault "session.create") else
  let sess : Session :=
    { id := db.nextSessionId, userId := userId, tokenHash := tokenHash,
      expiresAt := expiresAt, revokedAt := none, createdAt := now }
  let db1 : DB := { db with sessions := db.sessions ++ [sess], nextSessionId := db.nextSessionId + 1 }
  if f.failUpdateLastLogin then .error (.dbFault "user.update") else
  .ok { db1 with users := db1.users.map (fun u =>
      if u.id == userId then { u with lastLogin := some now } else u) }

/-- `login`: validate, look up by email (HttpError 401 "No user found. Try a
different login." if absent), check `isActive` (403), verify the password
(any argon2 rejection propagates; mismatch is HttpError 401 "Invalid email or
password"), then create the session and update `lastLogin` in one
transaction. -/
def login (input : LoginInput) (sessionToken : String) (now : Nat)
    (f : LoginFaults) (db : DB) : DB × Except AuthErr AuthResult :=
  if ¬ loginInputValid input then (db, .error .validation)
  else
    match db.users.find? (fun u => u.email == input.email) with
    | none => (db, .error (.http "No user found. Try a different login." 401))
    | some user =>
      if ¬ user.isActive then (db, .error (.http "Account disabled" 403))
      else
        match verifyPassword user.passwordHash input.password with
        | .error e => (db, .error e)
        | .ok false => (db, .error (.http "Invalid email or password" 401))
        | .ok true =>
          match loginTx user.id (hashSessionToken sessionToken)
              (getSessionExpiryDate now) now f db with
          | .error e => (db, .error e)
          | .ok db2 =>
            (db2, .ok { user := { id := user.id, email := user.email,
                                  username := user.username, role := user.role },
                        sessionToken := sessionToken })

/-! ## `app/api/auth/logout/route.ts` -/

/-- `prisma.session.updateMany(\x7bwhere: \x7btokenHash, revokedAt: null\x7d,
data: \x7brevokedAt: new Date()\x7d\x7d)`. -/
def revokeMatching (tokenHash : String) (now : Nat) (sessions : List Session) :
    List Session :=
  sessions.map (fun s =>
    if s.tokenHash == tokenHash && s.revokedAt == none
    then { s with revokedAt := some now } else s)

/-- The logout handler: if the request carries a session token, soft-revoke
every not-yet-revoked session with that token's hash; always respond 200
(clearing the cookie client-side). -/
def logoutPOST (req : Request) (now : Nat) (db : DB) : DB × Nat :=
  match getRawSessionTokenFromRequest req with
  | none => (db, 200)
  | some raw =>
    if raw = "" then (db, 200)
    else ({ db with sessions := revokeMatching (hashSessionToken raw) now db.sessions }, 200)

/-! ## `app/api/auth/google/callback/route.ts`

The two outbound HTTPS calls (token exchange, OIDC userinfo) are modelled by
an oracle describing what the provider would answer; the outcome records
whether the token-exchange call was reached at all. -/

structure GoogleUserInfo where
  sub : Option String
  email : Option String
  name : Option String
  deriving Repr, DecidableEq

structure OAuthNet where
  /-- Whether the token-endpoint response is `ok`. -/
  exchangeOk : Bool
  /-- Whether the userinfo-endpoint response is `ok`. -/
  userinfoOk : Bool
  info : GoogleUserInfo
  deriving Repr, DecidableEq

inductive CallbackResp where
  | json (status : Nat)
  | redirect
  deriving Repr, DecidableEq

structure CallbackOutcome where
  db : DB
  resp : CallbackResp
  exchangeAttempted : Bool
  deriving Repr, DecidableEq

def addSessionRow (db : DB) (userId : Nat) (tokenHash : String) (expiresAt now : Nat) : DB :=
  { db with
    sessions := db.sessions ++
      [{ id := db.nextSessionId, userId := userId, tokenHash := tokenHash,
         expiresAt := expiresAt, revokedAt := none, createdAt := now }],
    nextSessionId := db.nextSessionId + 1 }

def addOAuthAccountRow (db : DB) (userId : Nat) (sub email : String) : DB :=
  { db with oauthAccounts := db.oauthAccounts ++
      [{ userId := userId, provider := "GOOGLE", providerAccountId := sub, email := email }] }

/-- The OAuth callback handler.  Order, as in the source: missing `code` →
400; CSRF state check against the `oauth_state` cookie → 400; token
exchange; userinfo fetch; missing `sub`/`email` → 400; then one transaction
that links or creates the local account and creates the session. -/
def oauthCallbackGET (req : Request) (net : OAuthNet) (sessionToken : String)
    (now : Nat) (db : DB) : CallbackOutcome :=
  if ¬ jsTruthyStr req.code then ⟨db, .json 400, false⟩
  else
    let cookieState := cookieMatch "oauth_state" (req.cookie.getD "")
    if !jsTruthyStr req.state || !jsTruthyStr cookieState || req.state != cookieState then
      ⟨db, .json 400, false⟩
    else if ¬ net.exchangeOk then ⟨db, .json 400, true⟩
    else if ¬ net.userinfoOk then ⟨db, .json 400, true⟩
    else if ¬ jsTruthyStr net.info.sub then ⟨db, .json 400, true⟩
    else if ¬ jsTruthyStr net.info.email then ⟨db, .json 400, true⟩
    else
      let sub := net.info.sub.getD ""
      let email := net.info.email.getD ""
      let displayName :=
        match net.info.name with
        | some n => n
        | none => (strSplitCh '@' email).headD ""
      let tokenHash := hashSessionToken sessionToken
      let expiresAt := getSessionExpiryDate now
      match (db.oauthAccounts.find? (fun a =>
              a.provider == "GOOGLE" && a.providerAccountId == sub)).bind
            (fun a => findUserById db a.userId) with
      | some u => ⟨addSessionRow db u.id tokenHash expiresAt now, .redirect, true⟩
      | none =>
        match db.users.find? (fun u => u.email == email) with
        | some dbUser =>
          let db1 := addOAuthAccountRow db dbUser.id sub email
          ⟨addSessionRow db1 dbUser.id tokenHash expiresAt now, .redirect, true⟩
        | none =>
          let user : User :=
            { id := db.nextUserId, email := email,
              username := (match net.info.name with | some n => n | none => displayName),
              passwordHash := "OAUTH", role := "USER", isActive := true,
              lastLogin := none, createdAt := now }
          let db1 : DB := { db with users := db.users ++ [user], nextUserId := db.nextUserId + 1 }
          let family : Family :=
            { id := db1.nextFamilyId, name := defaultFamilyName user.username,
              createdBy := user.id, createdAt := now }
          let db2 : DB :=
            { db1 with
              families := db1.families ++ [family],
              nextFamilyId := db1.nextFamilyId + 1 }
          let db3 : DB := { db2 with familyMembers := db2.familyMembers ++
              [{ userId := user.id, familyId := family.id, memberRole := "OWNER" }] }
          let db4 := addOAuthAccountRow db3 user.id sub email
          ⟨addSessionRow db4 user.id tokenHash expiresAt now, .redirect, true⟩

/-! ## Sample data used by concrete witnesses -/

def DB.empty : DB := ⟨[], [], [], [], [], 1, 1, 1⟩

def regInputW : RegisterInput :=
  ⟨"sam@example.com", "sungjinwong", "password123", some "Wong House"⟩

/-- A database holding one credential account, produced by the fault-free
registration of `a@x.com`. -/
def dbAlice : DB :=
  (register ⟨"a@x.com", "alice1", "password123", none⟩ "saltA" "tokenA" 1000
    RegisterFaults.noFaults DB.empty).1

/-! ## Helper lemmas -/


deriving instance DecidableEq for Except

/-- `scanCookie` only ever returns a nonempty capture (the regex is
`[^;]+`). -/
theorem scanCookie_ne_nil (pat : List Char) :
    ∀ l cap, scanCookie pat l = some cap → cap ≠ [] := by
  intro l
  induction l with
  | nil => intro cap h; simp [scanCookie] at h
  | cons c cs ih =>
    intro cap h
    unfold scanCookie at h
    split at h
    · split at h
      · exact ih cap h
      · rename_i hne
        cases h
        simpa [List.isEmpty_iff] using hne
    · exact ih cap h

/-- `cookieMatch` never returns the empty string (`[^;]+` needs at least one
character). -/
theorem cookieMatch_ne_empty (name header t : String)
    (h : cookieMatch name header = some t) : t ≠ "" := by
  unfold cookieMatch at h
  cases hs : scanCookie (name.toList ++ ['=']) header.toList with
  | none => rw [hs] at h; simp at h
  | some cap =>
    rw [hs] at h
    have hcap := scanCookie_ne_nil _ _ _ hs
    simp only [Option.map_some'] at h
    cases h
    intro hc
    apply hcap
    simpa [String.ext_iff] using hc

/-- The session-cookie extractor never returns the empty string. -/
theorem getRawSessionToken_ne_empty (req : Request) (t : String)
    (h : getRawSessionTokenFromRequest req = some t) : t ≠ "" := by
  unfold getRawSessionTokenFromRequest at h
  exact cookieMatch_ne_empty _ _ _ h

/-- Every error raised inside `register`'s transaction body is an injected
storage fault. -/
theorem registerTx_error_shape (data : RegisterInput) (ph th : String)
    (expiresAt now : Nat) (f : RegisterFaults) (db : DB) (e : AuthErr)
    (h : registerTx data ph th expiresAt now f db = .error e) :
    ∃ op, e = .dbFault op := by
  unfold registerTx at h
  split at h
  · cases h; exact ⟨"user.create", rfl⟩
  · split at h
    · cases h; exact ⟨"family.create", rfl⟩
    · split at h
      · cases h; exact ⟨"familyMember.create", rfl⟩
      · split at h
        · cases h; exact ⟨"session.create", rfl⟩
        · cases h

/-- Every error raised inside `login`'s transaction body is an injected
storage fault. -/
theorem loginTx_error_shape (userId : Nat) (th : String) (expiresAt now : Nat)
    (f : LoginFaults) (db : DB) (e : AuthErr)
    (h : loginTx userId th expiresAt now f db = .error e) :
    ∃ op, e = .dbFault op := by
  unfold loginTx at h
  split at h
  · cases h; exact ⟨"session.create", rfl⟩
  · split at h
    · cases h; exact ⟨"user.update", rfl⟩
    · cases h

/-! ## C1 — registration is all-or-nothing -/

/-- **C1.**  Registration is all-or-nothing: whenever `register` fails — with
a validation error, a duplicate-email conflict, or a storage fault of any of
the four row creations (User, Family, FamilyMember, Session) inside its
transaction — the resulting database equals the initial one; no partial
user/family/membership/session state persists. -/
theorem register_rollback_on_error (input : RegisterInput) (salt tok : String)
    (now : Nat) (f : RegisterFaults) (db db' : DB) (e : AuthErr)
    (h : register input salt tok now f db = (db', .error e)) : db' = db := by
  unfold register at h
  split at h
  · cases h; rfl
  · split at h
    · cases h; rfl
    · split at h
      · cases h; rfl
      · cases h

/-- Witness for C1: a registration whose Session insert faults does fail, and
by the theorem it leaves the one-account database unchanged. -/
theorem register_rollback_on_error_witness :
    register regInputW "s2" "tok2" 2000 ⟨false, false, false, true⟩ dbAlice
      = (dbAlice, .error (.dbFault "session.create"))
    ∧ dbAlice = dbAlice :=
  ⟨by decide,
   register_rollback_on_error regInputW "s2" "tok2" 2000
     ⟨false, false, false, true⟩ dbAlice dbAlice (.dbFault "session.create") (by decide)⟩

/-! ## C2 — successful registration creates exactly the four rows -/

/-- **C2.**  For every schema-valid registration input whose email is not yet
registered, the (fault-free) `register` creates exactly one User, exactly one
Family named the supplied name or `username + "'s Family"`, exactly one
FamilyMember with role OWNER, and exactly one non-revoked Session whose
stored `tokenHash` is the SHA-256 hash of the raw session token that
`register` returns (`result.sessionToken = tok` and the stored hash is
`hashSessionToken tok`). -/
theorem register_success_creates_rows (input : RegisterInput) (salt tok : String)
    (now : Nat) (db : DB)
    (hv : registerInputValid input = true)
    (hfresh : ∀ u ∈ db.users, u.email ≠ input.email) :
    register input salt tok now RegisterFaults.noFaults db =
      ({ users := db.users ++
            [{ id := db.nextUserId, email := input.email, username := input.username,
               passwordHash := hashPassword salt input.password, role := "USER",
               isActive := true, lastLogin := none, createdAt := now }],
         families := db.families ++
            [{ id := db.nextFamilyId,
               name := input.familyName.getD (defaultFamilyName input.username),
               createdBy := db.nextUserId, createdAt := now }],
         familyMembers := db.familyMembers ++
            [{ userId := db.nextUserId, familyId := db.nextFamilyId, memberRole := "OWNER" }],
         sessions := db.sessions ++
            [{ id := db.nextSessionId, userId := db.nextUserId,
               tokenHash := hashSessionToken tok,
               expiresAt := getSessionExpiryDate now, revokedAt := none, createdAt := now }],
         oauthAccounts := db.oauthAccounts,
         nextUserId := db.nextUserId + 1, nextFamilyId := db.nextFamilyId + 1,
         nextSessionId := db.nextSessionId + 1 },
       .ok { user := { id := db.nextUserId, email := input.email,
                       username := input.username, role := "USER" },
             sessionToken := tok }) := by
  have hf : db.users.find? (fun u => u.email == input.email) = none :=
    List.find?_eq_none.mpr (fun u hu => by simpa using hfresh u hu)
  unfold register registerTx
  simp [hv, hf, RegisterFaults.noFaults]

/-- Witness for C2: registering `sam@example.com` against the empty database
leaves exactly one session row, holding the hash of the returned token. -/
theorem register_success_creates_rows_witness :
    registerInputValid regInputW = true
    ∧ (register regInputW "saltW" "tokW" 1000 RegisterFaults.noFaults DB.empty).1.sessions =
        [{ id := 1, userId := 1, tokenHash := hashSessionToken "tokW",
           expiresAt := getSessionExpiryDate 1000, revokedAt := none, createdAt := 1000 }] :=
  ⟨by decide,
   by rw [register_success_creates_rows regInputW "saltW" "tokW" 1000 DB.empty
        (by decide) (by decide)]; rfl⟩

/-! ## C4 — duplicate email conflicts, fresh email never conflicts -/

/-- **C4.**  Registering a schema-valid input whose email is already
registered fails with the 409 ConflictError and leaves the database exactly
as it was (zero additional User/Family/FamilyMember rows); registering with
an email no existing user has never produces a 409 error, whatever faults
occur. -/
theorem register_duplicate_email_conflict (input : RegisterInput) (salt tok : String)
    (now : Nat) (f : RegisterFaults) (db : DB) :
    (registerInputValid input = true →
      (∃ u ∈ db.users, u.email = input.email) →
      register input salt tok now f db = (db, .error (.http "Email already in use" 409)))
    ∧ ((∀ u ∈ db.users, u.email ≠ input.email) →
      ∀ msg, (register input salt tok now f db).2 ≠ .error (.http msg 409)) := by
  constructor
  · rintro hv ⟨u, hu, he⟩
    have hsome : (db.users.find? (fun v => v.email == input.email)).isSome :=
      List.find?_isSome.mpr ⟨u, hu, by simpa using he⟩
    rcases hfind : db.users.find? (fun v => v.email == input.email) with _ | w
    · rw [hfind] at hsome; simp at hsome
    · unfold register
      simp [hv, hfind]
  · intro hfresh msg
    have hf : db.users.find? (fun v => v.email == input.email) = none :=
      List.find?_eq_none.mpr (fun u hu => by simpa using hfresh u hu)
    by_cases hv : registerInputValid input = true
    · rcases htx : registerTx input (hashPassword salt input.password)
          (hashSessionToken tok) (getSessionExpiryDate now) now f db with e | ⟨db2, user⟩
      · obtain ⟨op, rfl⟩ := registerTx_error_shape _ _ _ _ _ _ _ _ htx
        unfold register
        simp [hv, hf, htx]
      · unfold register
        simp [hv, hf, htx]
    · unfold register
      simp [hv]

/-- Witness for C4: re-registering `a@x.com` conflicts with status 409 and
changes nothing; registering a fresh email never yields a 409. -/
theorem register_duplicate_email_conflict_witness :
    register ⟨"a@x.com", "mallory1", "password999", none⟩ "s9" "tok9" 3000
        RegisterFaults.noFaults dbAlice
      = (dbAlice, .error (.http "Email already in use" 409))
    ∧ ∀ msg, (register regInputW "s9" "tok9" 3000 RegisterFaults.noFaults DB.empty).2
        ≠ .error (.http msg 409) :=
  ⟨(register_duplicate_email_conflict ⟨"a@x.com", "mallory1", "password999", none⟩
      "s9" "tok9" 3000 RegisterFaults.noFaults dbAlice).1 (by decide) (by decide),
   (register_duplicate_email_conflict regInputW "s9" "tok9" 3000
      RegisterFaults.noFaults DB.empty).2 (by decide)⟩

/-! ## C3 — the session resolver returns the user exactly for valid sessions -/

/-- **C3.**  Under the schema's uniqueness of `tokenHash`, the session
resolver returns a user exactly when the request carries a session cookie
whose hashed token matches a stored session with null revocation timestamp
and expiry strictly in the future; and in each of the four failure cases —
no cookie, no matching token hash, revocation timestamp set, expiry not in
the future — it returns the same `none` ("unauthenticated"), indistinguishable
to the caller. -/
theorem resolver_session_validity (req : Request) (db : DB) (now : Nat)
    (huniq : ∀ s1 ∈ db.sessions, ∀ s2 ∈ db.sessions, s1.tokenHash = s2.tokenHash → s1 = s2) :
    (∀ u : User, getCurrentUserFromRequest req db now = some u ↔
      ∃ tok, getRawSessionTokenFromRequest req = some tok ∧
        ∃ s ∈ db.sessions, s.tokenHash = hashSessionToken tok ∧ s.revokedAt = none ∧
          now < s.expiresAt ∧ findUserById db s.userId = some u)
    ∧ (getRawSessionTokenFromRequest req = none →
        getCurrentUserFromRequest req db now = none)
    ∧ (∀ tok, getRawSessionTokenFromRequest req = some tok →
        (∀ s ∈ db.sessions, s.tokenHash ≠ hashSessionToken tok) →
        getCurrentUserFromRequest req db now = none)
    ∧ (∀ tok s, getRawSessionTokenFromRequest req = some tok → s ∈ db.sessions →
        s.tokenHash = hashSessionToken tok → s.revokedAt ≠ none →
        getCurrentUserFromRequest req db now = none)
    ∧ (∀ tok s, getRawSessionTokenFromRequest req = some tok → s ∈ db.sessions →
        s.tokenHash = hashSessionToken tok → s.expiresAt ≤ now →
        getCurrentUserFromRequest req db now = none) := by
  refine ⟨?_, ?_, ?_, ?_, ?_⟩
  · intro u
    cases hext : getRawSessionTokenFromRequest req with
    | none => simp [getCurrentUserFromRequest, hext]
    | some raw =>
      have hne : raw ≠ "" := getRawSessionToken_ne_empty req raw hext
      cases hfind : db.sessions.find? (fun s => s.tokenHash == hashSessionToken raw) with
      | none =>
        simp only [getCurrentUserFromRequest, hext, if_neg hne, hfind]
        constructor
        · intro h; cases h
        · rintro ⟨tok, htok, s, hs, hhash, -, -, -⟩
          cases htok
          have := List.find?_eq_none.mp hfind s hs
          simp [hhash] at this
      | some sess =>
        have hmem := List.mem_of_find?_eq_some hfind
        have hpred : sess.tokenHash = hashSessionToken raw := by
          simpa using List.find?_some hfind
        simp only [getCurrentUserFromRequest, hext, if_neg hne, hfind]
        constructor
        · intro h
          rcases hrev : sess.revokedAt with _ | t
          · rcases hlt : decide (sess.expiresAt ≤ now) with _ | _
            · have hlt' : ¬ sess.expiresAt ≤ now := of_decide_eq_false hlt
              rw [hrev] at h
              simp only [Option.isSome_none, Bool.false_eq_true, if_false] at h
              rw [if_neg hlt'] at h
              exact ⟨raw, rfl, sess, hmem, hpred, hrev, Nat.lt_of_not_le hlt', h⟩
            · have hle : sess.expiresAt ≤ now := of_decide_eq_true hlt
              rw [hrev] at h
              simp only [Option.isSome_none, Bool.false_eq_true, if_false] at h
              rw [if_pos hle] at h
              cases h
          · rw [hrev] at h
            simp at h
        · rintro ⟨tok, htok, s, hs, hhash, hrev, hlt, hu⟩
          cases htok
          have hseq : s = sess := huniq s hs sess hmem (by rw [hhash, hpred])
          subst hseq
          rw [hrev]
          simp only [Option.isSome_none, Bool.false_eq_true, if_false]
          rw [if_neg (Nat.not_le_of_lt hlt)]
          exact hu
  · intro hext
    simp [getCurrentUserFromRequest, hext]
  · intro tok hext hnone
    have hne : tok ≠ "" := getRawSessionToken_ne_empty req tok hext
    have hfind : db.sessions.find? (fun s => s.tokenHash == hashSessionToken tok) = none :=
      List.find?_eq_none.mpr (fun s hs => by simpa using hnone s hs)
    simp [getCurrentUserFromRequest, hext, if_neg hne, hfind]
  · intro tok s hext hs hhash hrev
    have hne : tok ≠ "" := getRawSessionToken_ne_empty req tok hext
    cases hfind : db.sessions.find? (fun x => x.tokenHash == hashSessionToken tok) with
    | none => simp [getCurrentUserFromRequest, hext, if_neg hne, hfind]
    | some sess =>
      have hmem := List.mem_of_find?_eq_some hfind
      have hpred : sess.tokenHash = hashSessionToken tok := by
        simpa using List.find?_some hfind
      have hseq : s = sess := huniq s hs sess hmem (by rw [hhash, hpred])
      subst hseq
      rcases hrv : s.revokedAt with _ | t
      · exact absurd hrv hrev
      · simp [getCurrentUserFromRequest, hext, if_neg hne, hfind, hrv]
  · intro tok s hext hs hhash hle
    have hne : tok ≠ "" := getRawSessionToken_ne_empty req tok hext
    cases hfind : db.sessions.find? (fun x => x.tokenHash == hashSessionToken tok) with
    | none => simp [getCurrentUserFromRequest, hext, if_neg hne, hfind]
    | some sess =>
      have hmem := List.mem_of_find?_eq_some hfind
      have hpred : sess.tokenHash = hashSessionToken tok := by
        simpa using List.find?_some hfind
      have hseq : s = sess := huniq s hs sess hmem (by rw [hhash, hpred])
      subst hseq
      rcases hrv : s.revokedAt with _ | t
      · simp [getCurrentUserFromRequest, hext, if_neg hne, hfind, hrv, hle]
      · simp [getCurrentUserFromRequest, hext, if_neg hne, hfind, hrv]

def userW : User :=
  { id := 7, email := "w@x.com", username := "wanda1",
    passwordHash := argon2Digest "s" "password123", role := "USER",
    isActive := true, lastLogin := none, createdAt := 0 }

def sessW : Session :=
  { id := 1, userId := 7, tokenHash := hashSessionToken "tokenW",
    expiresAt := 100, revokedAt := none, createdAt := 0 }

def dbW : DB :=
  { users := [userW], families := [], familyMembers := [], sessions := [sessW],
    oauthAccounts := [], nextUserId := 8, nextFamilyId := 1, nextSessionId := 2 }

/-- Witness for C3: a request presenting the valid cookie resolves to the
session's user. -/
theorem resolver_session_validity_witness :
    getCurrentUserFromRequest ⟨some "session=tokenW", none, none⟩ dbW 50 = some userW :=
  ((resolver_session_validity ⟨some "session=tokenW", none, none⟩ dbW 50 (by decide)).1
      userW).mpr
    ⟨"tokenW", by decide, sessW, by decide, rfl, rfl, by decide, by decide⟩

/-! ## C5 — logout revokes exactly the matching, not-yet-revoked sessions -/

/-- **C5.**  Logout sets the revocation timestamp on exactly those session
rows whose `tokenHash` equals the hash of the presented raw token and whose
revocation timestamp is still null; every other session row — and every
other field of a matched row — is unchanged, as are all other tables; and
the session resolver applied afterwards to the same raw token returns
`none` ("unauthenticated"). -/
theorem logout_revokes_matching_sessions (req : Request) (db : DB) (now now2 : Nat)
    (raw : String) (hext : getRawSessionTokenFromRequest req = some raw) :
    (logoutPOST req now db).1.sessions = db.sessions.map (fun s =>
        if s.tokenHash = hashSessionToken raw ∧ s.revokedAt = none
        then { s with revokedAt := some now } else s)
    ∧ (logoutPOST req now db).1.users = db.users
    ∧ (logoutPOST req now db).1.families = db.families
    ∧ (logoutPOST req now db).1.familyMembers = db.familyMembers
    ∧ (logoutPOST req now db).1.oauthAccounts = db.oauthAccounts
    ∧ getCurrentUserFromRequest req (logoutPOST req now db).1 now2 = none := by
  have hne : raw ≠ "" := getRawSessionToken_ne_empty req raw hext
  have hl : logoutPOST req now db =
      ({ db with sessions := revokeMatching (hashSessionToken raw) now db.sessions }, 200) := by
    simp only [logoutPOST, hext]
    rw [if_neg hne]
  have hmap : revokeMatching (hashSessionToken raw) now db.sessions =
      db.sessions.map (fun s =>
        if s.tokenHash = hashSessionToken raw ∧ s.revokedAt = none
        then { s with revokedAt := some now } else s) := by
    unfold revokeMatching
    refine List.map_congr_left (fun s _ => ?_)
    by_cases h1 : s.tokenHash = hashSessionToken raw ∧ s.revokedAt = none
    · rw [if_pos h1, if_pos]
      simp [h1.1, h1.2]
    · rw [if_neg h1, if_neg]
      simp only [Bool.and_eq_true, beq_iff_eq]
      exact fun hc => h1 ⟨hc.1, hc.2⟩
  refine ⟨by rw [hl, hmap], by rw [hl], by rw [hl], by rw [hl], by rw [hl], ?_⟩
  rw [hl]
  cases hfind : (revokeMatching (hashSessionToken raw) now db.sessions).find?
      (fun s => s.tokenHash == hashSessionToken raw) with
  | none =>
    simp [getCurrentUserFromRequest, hext, if_neg hne, hfind]
  | some sess =>
    have hmem := List.mem_of_find?_eq_some hfind
    have hpred : sess.tokenHash = hashSessionToken raw := by
      simpa using List.find?_some hfind
    obtain ⟨s0, hs0, himg⟩ := List.mem_map.mp (by simpa [revokeMatching] using hmem)
    have hrev : sess.revokedAt ≠ none := by
      by_cases h1 : s0.tokenHash = hashSessionToken raw ∧ s0.revokedAt = none
      · rw [if_pos h1] at himg
        rw [← himg]
        simp
      · rw [if_neg h1] at himg
        subst himg
        intro hc
        exact h1 ⟨hpred, hc⟩
    simp [getCurrentUserFromRequest, hext, if_neg hne, hfind, Option.isSome_iff_ne_none, hrev]

/-- Witness for C5: logging out the `dbW` session revokes exactly that row
and the stale token no longer resolves. -/
theorem logout_revokes_matching_sessions_witness :
    (logoutPOST ⟨some "session=tokenW", none, none⟩ 60 dbW).1.sessions
      = [{ sessW with revokedAt := some 60 }]
    ∧ getCurrentUserFromRequest ⟨some "session=tokenW", none, none⟩
        (logoutPOST ⟨some "session=tokenW", none, none⟩ 60 dbW).1 61 = none := by
  obtain ⟨h1, -, -, -, -, h6⟩ :=
    logout_revokes_matching_sessions ⟨some "session=tokenW", none, none⟩ dbW 60 61
      "tokenW" (by decide)
  refine ⟨?_, h6⟩
  rw [h1]
  decide

/-! ## C6 — the OAuth callback rejects a bad state or missing code early -/

/-- **C6.**  For every OAuth callback request whose `state` parameter does
not match the `oauth_state` cookie marker (including a missing/empty `state`
or marker) or which lacks an authorization `code`, the callback responds
with a 400 validation failure, never reaches the provider token exchange,
and creates zero rows of any kind — the database is returned untouched. -/
theorem oauth_callback_rejects_bad_state_or_code (req : Request) (net : OAuthNet)
    (tok : String) (now : Nat) (db : DB)
    (h : jsTruthyStr req.code = false
       ∨ jsTruthyStr req.state = false
       ∨ jsTruthyStr (cookieMatch "oauth_state" (req.cookie.getD "")) = false
       ∨ req.state ≠ cookieMatch "oauth_state" (req.cookie.getD "")) :
    oauthCallbackGET req net tok now db = ⟨db, .json 400, false⟩ := by
  by_cases hc : jsTruthyStr req.code = true
  · have hcond : (!jsTruthyStr req.state
        || !jsTruthyStr (cookieMatch "oauth_state" (req.cookie.getD ""))
        || req.state != cookieMatch "oauth_state" (req.cookie.getD "")) = true := by
      rcases h with h | h | h | h
      · rw [hc] at h; cases h
      · simp [h]
      · simp [h]
      · simp [bne_iff_ne, h]
    simp only [oauthCallbackGET]
    rw [if_neg (by simp [hc]), if_pos hcond]
  · have hc' : jsTruthyStr req.code = false := by
      revert hc; cases jsTruthyStr req.code <;> simp
    simp only [oauthCallbackGET]
    rw [if_pos (by simp [hc'])]

/-- Witness for C6: a callback whose `state` differs from the stored
`oauth_state` marker is rejected with 400, without a token exchange and
without any rows created. -/
theorem oauth_callback_rejects_witness :
    oauthCallbackGET ⟨some "oauth_state=abc", some "authcode1", some "WRONG"⟩
        ⟨true, true, ⟨some "sub1", some "g@x.com", none⟩⟩ "tokO" 0 DB.empty
      = ⟨DB.empty, .json 400, false⟩ :=
  oauth_callback_rejects_bad_state_or_code _ _ _ _ _
    (Or.inr (Or.inr (Or.inr (by decide))))

/-! ## C7 — credential-login failure responses -/

def aliceRow : User :=
  { id := 1, email := "a@x.com", username := "alice1",
    passwordHash := argon2Digest "saltA" "password123", role := "USER",
    isActive := true, lastLogin := none, createdAt := 1000 }

/-- Counterexample to C7 as stated: the two failing logins — unknown email
versus known email with wrong password — both carry status 401 but return
*different* messages, so the response does reveal whether the email exists.
-/
theorem login_distinct_failure_messages_cex :
    (login ⟨"b@x.com", "password123"⟩ "tokB" 5 LoginFaults.noFaults dbAlice).2
      = .error (.http "No user found. Try a different login." 401)
    ∧ (login ⟨"a@x.com", "wrongpassword9"⟩ "tokB" 5 LoginFaults.noFaults dbAlice).2
      = .error (.http "Invalid email or password" 401)
    ∧ ("No user found. Try a different login." : String) ≠ "Invalid email or password" :=
  ⟨by decide, by decide, by decide⟩

/-- **C7 (amended).**  Both failing logins raise `HttpError` with the same
status 401, but with fixed distinct messages: an unknown email yields
"No user found. Try a different login." while a wrong password for an
existing active account yields "Invalid email or password"; the two
responses therefore differ in message (equal status only). -/
theorem login_failure_statuses_401 (input : LoginInput) (tok : String) (now : Nat)
    (f : LoginFaults) (db : DB) (u : User)
    (hv : loginInputValid input = true) :
    ((∀ w ∈ db.users, w.email ≠ input.email) →
      (login input tok now f db).2
        = .error (.http "No user found. Try a different login." 401))
    ∧ (db.users.find? (fun w => w.email == input.email) = some u → u.isActive = true →
      verifyPassword u.passwordHash input.password = .ok false →
      (login input tok now f db).2 = .error (.http "Invalid email or password" 401)) := by
  constructor
  · intro hfresh
    have hf : db.users.find? (fun w => w.email == input.email) = none :=
      List.find?_eq_none.mpr (fun w hw => by simpa using hfresh w hw)
    unfold login
    simp [hv, hf]
  · intro hfind hact hverify
    unfold login
    simp [hv, hfind, hact, hverify]

/-- Witness for the amended C7 at concrete failing logins. -/
theorem login_failure_statuses_401_witness :
    (login ⟨"b@x.com", "pw123456"⟩ "tokC" 7 LoginFaults.noFaults dbAlice).2
      = .error (.http "No user found. Try a different login." 401)
    ∧ (login ⟨"a@x.com", "badpassword1"⟩ "tokC" 7 LoginFaults.noFaults dbAlice).2
      = .error (.http "Invalid email or password" 401) :=
  ⟨(login_failure_statuses_401 ⟨"b@x.com", "pw123456"⟩ "tokC" 7 LoginFaults.noFaults
      dbAlice aliceRow (by decide)).1 (by decide),
   (login_failure_statuses_401 ⟨"a@x.com", "badpassword1"⟩ "tokC" 7 LoginFaults.noFaults
      dbAlice aliceRow (by decide)).2 (by decide) rfl (by decide)⟩

/-! ## C9 — the last-login update is not best-effort -/

/-- Counterexample to C9 as stated: with correct credentials and a session
row successfully created inside the transaction, a failure of the
`lastLogin` update makes the whole `login` fail and rolls the new Session
back — the database is returned unchanged. -/
theorem login_lastLogin_fault_rolls_back_cex :
    login ⟨"a@x.com", "password123"⟩ "tokD" 9 ⟨false, true⟩ dbAlice
      = (dbAlice, .error (.dbFault "user.update")) := by decide

/-- **C9 (amended).**  The last-login update runs inside the same
transaction as the session creation: whenever it fails, the surrounding
login fails too and no new Session row persists (the database is exactly
the initial one) — all-or-nothing rather than best-effort. -/
theorem login_lastLogin_fault_fails_login (input : LoginInput) (tok : String)
    (now : Nat) (f : LoginFaults) (db : DB) (hf : f.failUpdateLastLogin = true) :
    (login input tok now f db).1 = db ∧ ∀ r, (login input tok now f db).2 ≠ .ok r := by
  have htx : ∀ uid th ea, ∃ e0, loginTx uid th ea now f db = .error e0 := by
    intro uid th ea
    by_cases h1 : f.failCreateSession = true
    · exact ⟨.dbFault "session.create", by simp [loginTx, h1]⟩
    · refine ⟨.dbFault "user.update", ?_⟩
      simp only [loginTx]
      rw [if_neg h1]
      simp [hf]
  have key : ∃ e', login input tok now f db = (db, .error e') := by
    by_cases hv : loginInputValid input = true
    · cases hfind : db.users.find? (fun u => u.email == input.email) with
      | none =>
        exact ⟨.http "No user found. Try a different login." 401,
          by unfold login; simp [hv, hfind]⟩
      | some user =>
        by_cases hact : user.isActive = true
        · cases hver : verifyPassword user.passwordHash input.password with
          | error e => exact ⟨e, by unfold login; simp [hv, hfind, hact, hver]⟩
          | ok b =>
            cases b with
            | false =>
              exact ⟨.http "Invalid email or password" 401,
                by unfold login; simp [hv, hfind, hact, hver]⟩
            | true =>
              obtain ⟨e0, he0⟩ :=
                htx user.id (hashSessionToken tok) (getSessionExpiryDate now)
              exact ⟨e0, by unfold login; simp [hv, hfind, hact, hver, he0]⟩
        · exact ⟨.http "Account disabled" 403, by unfold login; simp [hv, hfind, hact]⟩
    · exact ⟨.validation, by unfold login; simp [hv]⟩
  obtain ⟨e', he'⟩ := key
  rw [he']
  exact ⟨rfl, fun r h => by cases h⟩

/-- Witness for the amended C9 at a concrete faulted login. -/
theorem login_lastLogin_fault_fails_login_witness :
    (login ⟨"a@x.com", "password123"⟩ "tokD" 9 ⟨false, true⟩ dbAlice).1 = dbAlice
    ∧ ∀ r, (login ⟨"a@x.com", "password123"⟩ "tokD" 9 ⟨false, true⟩ dbAlice).2 ≠ .ok r :=
  login_lastLogin_fault_fails_login ⟨"a@x.com", "password123"⟩ "tokD" 9 ⟨false, true⟩
    dbAlice rfl

/-! ## C8 — `verifyPassword` on the "OAUTH" placeholder hash -/

/-- The database produced by a successful first-time Google OAuth callback:
it contains one federation-only user whose stored credential is the
placeholder string "OAUTH". -/
def dbOAuth : DB :=
  (oauthCallbackGET ⟨some "oauth_state=xyz", some "code1", some "xyz"⟩
    ⟨true, true, ⟨some "gsub1", some "g@x.com", none⟩⟩ "tokG" 0 DB.empty).db

/-- **C8 (the code at the failing input).**  `verifyPassword` delegates to
the argon2 library with no handling of malformed stored hashes, so on the
"OAUTH" placeholder it propagates the library's rejection instead of
returning `false`: a credential login against the federation-only account
created by the OAuth callback fails with the argon2 error (surfaced by the
route as a generic 400), never with the UnauthorizedError 401 the spec
requires, and never succeeds. -/
theorem verifyPassword_malformed_hash_throws :
    verifyPassword "OAUTH" "password123"
      = .error (.argon "pchstr must contain a $ as first char")
    ∧ dbOAuth.users.map (fun u => (u.email, u.passwordHash)) = [("g@x.com", "OAUTH")]
    ∧ (login ⟨"g@x.com", "password123"⟩ "tokH" 5 LoginFaults.noFaults dbOAuth).2
      = .error (.argon "pchstr must contain a $ as first char")
    ∧ ∀ msg, (login ⟨"g@x.com", "password123"⟩ "tokH" 5 LoginFaults.noFaults dbOAuth).2
      ≠ .error (.http msg 401) := by
  refine ⟨by decide, by decide, by decide, ?_⟩
  intro msg h
  rw [(by decide : (login ⟨"g@x.com", "password123"⟩ "tokH" 5 LoginFaults.noFaults dbOAuth).2
      = .error (.argon "pchstr must contain a $ as first char"))] at h
  simp at h

/-! ## C10 — the session-cookie regex matches unanchored -/

/-- The names of the cookies in a Cookie header, per RFC 6265 splitting
(separator ";", optional spaces, name before the first "="). -/
def cookieNames (header : String) : List String :=
  (splitCh ';' header.toList).map
    (fun p => String.mk ((p.dropWhile (fun c => c == ' ')).takeWhile (fun c => c != '=')))

def userTok : User :=
  { id := 3, email := "t@x.com", username := "tina11",
    passwordHash := argon2Digest "s" "password123", role := "USER",
    isActive := true, lastLogin := none, createdAt := 0 }

def sessTok : Session :=
  { id := 1, userId := 3, tokenHash := hashSessionToken "tok",
    expiresAt := 100, revokedAt := none, createdAt := 0 }

def dbTok : DB :=
  { users := [userTok], families := [], familyMembers := [], sessions := [sessTok],
    oauthAccounts := [], nextUserId := 4, nextFamilyId := 1, nextSessionId := 2 }

/-- **C10.**  Cookie extraction matches the cookie name unanchored: a header
containing no cookie named "session" but one named "mysession" still
matches, so `getRawSessionTokenFromRequest` returns "tok" and both the
resolver and logout treat "tok" as the presented session token (the
resolver authenticates with it; logout revokes the session whose stored
hash is the hash of "tok"). -/
theorem session_cookie_match_unanchored :
    cookieNames "mysession=tok" = ["mysession"]
    ∧ "session" ∉ cookieNames "mysession=tok"
    ∧ getRawSessionTokenFromRequest ⟨some "mysession=tok", none, none⟩ = some "tok"
    ∧ getCurrentUserFromRequest ⟨some "mysession=tok", none, none⟩ dbTok 50 = some userTok
    ∧ (logoutPOST ⟨some "mysession=tok", none, none⟩ 99 dbTok).1.sessions
        = [{ sessTok with revokedAt := some 99 }] :=
  ⟨by decide, by decide, by decide, by decide, by decide⟩
